import Mathlib

/-!
Verification of the pdfparser document-intelligence service.

Shallow embedding of `src/services/documentIntelligenceService.js`
(class `DocumentIntelligenceService`), covering:

* `calculateFieldConfidence`, `parseDocumentFields`,
  `extractFieldWithSimplePattern` (the pattern field extractor),
* `extractLineItems` and `extractGenericTables` (table reconstruction),
* `convertAIResponseToFields` / `extractFromObject` and
  `parseAITextResponse` (AI response normalisation),
* the deployment/API-version probe loop of `callAIFoundryAPI`,
* the orchestrator `extractData`.

Host-environment builtins that are not code of this repository are
abstracted: the JavaScript `RegExp` engine behind `String.prototype.match`
is modelled as an oracle parameter (a function from regex literal text and
subject text to an optional match result); the `axios` HTTP transport is a
call oracle; the filesystem, `pdf-parse`, and `JSON.parse` are likewise
outside the embedding (the JSON value reaching `convertAIResponseToFields`
is taken as an inductive JSON tree).  Simple anchored regexes that the
table reconstructor and the text-response parser apply (digit runs, ISO
dates, currency captures, the `key: value` line pattern) are embedded
directly as executable character-level functions.

Strings are JavaScript strings; `.length`/`substring` count UTF-16 units,
which for the code points exercised here agrees with counting characters.
Confidence values are exact decimals, embedded as rationals.
-/

namespace PdfParser

/-! Section: JavaScript string primitives. -/

/-- Character class of JavaScript `\s` (as used by `trim()` and the
whitespace regexes): ASCII whitespace, NBSP, the Unicode space separators,
line/paragraph separators and the BOM. -/
def jsWs (c : Char) : Bool :=
  c = ' ' || c = '\t' || c = '\n' || c = '\r' || c = '\x0b' || c = '\x0c' ||
  c = '\u00a0' || c = '\u1680' || ('\u2000' ≤ c && c ≤ '\u200a') ||
  c = '\u2028' || c = '\u2029' || c = '\u202f' || c = '\u205f' ||
  c = '\u3000' || c = '\ufeff'

/-- JavaScript trim on character lists: drop `\s` characters from
both ends. -/
def jsTrimL (l : List Char) : List Char :=
  ((l.dropWhile jsWs).reverse.dropWhile jsWs).reverse

/-- JavaScript trim on strings. -/
def jsTrim (s : String) : String := ⟨jsTrimL s.data⟩

/-- Worker for the replacement `replace(/\s+/g, ' ')`: every maximal
whitespace run becomes a single space.  The boolean records whether the previous character was part of a
whitespace run already rewritten. -/
def collapseWsGo : Bool → List Char → List Char
  | _, [] => []
  | prevWs, c :: rest =>
    if jsWs c then
      if prevWs then collapseWsGo true rest else ' ' :: collapseWsGo true rest
    else c :: collapseWsGo false rest

/-- Replacement `replace(/\s+/g, ' ')` on character lists. -/
def collapseWsL (l : List Char) : List Char := collapseWsGo false l

/-- JavaScript substring containment, the includes method. -/
def containsSub (needle : List Char) : List Char → Bool
  | [] => needle.isPrefixOf []
  | c :: t => needle.isPrefixOf (c :: t) || containsSub needle t

/-- JavaScript substring containment on strings. -/
def containsSubS (hay needle : String) : Bool := containsSub needle.data hay.data

/-! Section: the confidence heuristic. -/

/-- Test `value.match(/^[A-Z0-9\-\/\d]+$/i)`: non-empty, every character an
ASCII letter (the `i` flag folds `A-Z` to both cases), digit, dash or
slash. -/
def strictIdPattern (l : List Char) : Bool :=
  !l.isEmpty && l.all (fun c => c.isAlpha || c.isDigit || c = '-' || c = '/')

/-- Function `calculateFieldConfidence` (lines 575-590): confidence
heuristic for a primary-pattern match. -/
def calculateFieldConfidence (fieldName value : String) : ℚ :=
  if value = "" ∨ value = "Not found in document" then 0
  else if containsSubS fieldName "Number" || containsSubS fieldName "Date" then
    if strictIdPattern value.data then mkRat 95 100 else mkRat 75 100
  else if containsSubS fieldName "Address" then
    if value.data.length > 10 then mkRat 85 100 else mkRat 60 100
  else mkRat 80 100

/-! Section: address post-processing (lines 481-494). -/

theorem dropWhile_len_le {α : Type} (p : α → Bool) (l : List α) :
    (l.dropWhile p).length ≤ l.length := by
  induction l with
  | nil => simp [List.dropWhile]
  | cons a t ih =>
    by_cases h : p a
    · simp [List.dropWhile, h]; omega
    · simp [List.dropWhile, h]

/-- Worker for the replacement `replace(/\n\s*/g, '\n')`: each newline
and the whitespace run after it become a single newline.  The flag is
set while inside the whitespace run following a newline. -/
def replNlGo : Bool → List Char → List Char
  | _, [] => []
  | skipping, c :: rest =>
    if skipping then
      if jsWs c then replNlGo true rest
      else c :: replNlGo false rest
    else
      if c = '\n' then '\n' :: replNlGo true rest
      else c :: replNlGo false rest

/-- Replacement `replace(/\n\s*/g, '\n')` on character lists. -/
def replNlL (l : List Char) : List Char := replNlGo false l

/-- Leading half of `replace(/^\s*\n|\n\s*$/g, '')`: the anchored
alternative `^\s*\n` removes the leading whitespace run up to and
including the last newline inside it, when the run contains one. -/
def stripLeadNl (l : List Char) : List Char :=
  let pre := l.takeWhile jsWs
  if '\n' ∈ pre then
    l.drop (pre.length - (pre.reverse.takeWhile (fun c => c ≠ '\n')).length)
  else l

/-- Trailing half of `replace(/^\s*\n|\n\s*$/g, '')`: the alternative
`\n\s*$` removes everything from the first newline that has only
whitespace after it. -/
def stripTrailNlGo : List Char → List Char
  | [] => []
  | c :: rest =>
    if c = '\n' && rest.all jsWs then [] else c :: stripTrailNlGo rest

/-- Replacement `replace(/^\s*\n|\n\s*$/g, '')` (line 494). -/
def stripNlEdgesL (l : List Char) : List Char :=
  stripTrailNlGo (stripLeadNl l)

/-- Address branch of `parseDocumentFields` (lines 481-491): collapse
whitespace, apply the (vacuous after collapsing) newline-run replacement,
trim, and truncate to 300 characters plus an ellipsis marker.  The input
is the already-trimmed captured value. -/
def addressCleanL (v : List Char) : List Char :=
  let a := jsTrimL (replNlL (collapseWsL v))
  if a.length > 300 then a.take 300 ++ ("...".data) else a

/-- Value post-processing applied to a primary-pattern capture in
`parseDocumentFields` (lines 478-494): trim, address clean-up for
address-type fields, then the edge-newline replacement and a final trim. -/
def processPrimaryValue (fieldName : String) (raw : String) : String :=
  let v1 := jsTrimL raw.data
  let v2 := if containsSubS fieldName "Address" then addressCleanL v1 else v1
  ⟨jsTrimL (stripNlEdgesL v2)⟩

/-! Section: the pattern field extractor (lines 405-573).

The JavaScript RegExp engine behind the calls `text.match(pattern)` is a
host builtin, not code of this repository; it is abstracted as an oracle
mapping the regex literal text and the subject text to an optional match
result (the match array: full match and first capture group). -/

/-- Result of a JavaScript match call: the full match `m[0]` and the
first capture group `m[1]` (absent when the group did not participate). -/
structure JsMatch where
  m0 : String
  m1 : Option String
deriving Repr, DecidableEq

/-- Oracle abstracting the host regex engine: regex literal, subject
text, optional match. -/
abbrev MatchFn : Type := String → String → Option JsMatch

/-- Truthy first capture group, as tested by `match && match[1]`:
an absent or empty group is falsy. -/
def jsG1 (m : Option JsMatch) : Option String :=
  match m with
  | some mm =>
    match mm.m1 with
    | some s => if s = "" then none else some s
    | none => none
  | none => none

/-- First capture group of a simple-pattern match, as read by
`poMatch[1]` after a bare truthiness test on the match object (an absent
group reads as undefined, which is falsy at the caller). -/
def jsG1raw (m : Option JsMatch) : Option String :=
  match m with
  | some mm => some (mm.m1.getD "")
  | none => none

/-- Ordered per-field primary pattern table of `parseDocumentFields`
(lines 409-470), with the exact regex literals of the source. -/
def fieldPatterns : List (String × List String) :=
  [("PO Number",
    ["/PO\\s+Number\\s*:\\s*(\\d+)/i",
     "/PO\\s+No\\.?\\s*:?\\s*([A-Z0-9]+)/i",
     "/Purchase\\s+Order[:\\s]*([A-Z0-9]+)/i",
     "/(PR\\d\x7b6\x7d)/i"]),
   ("Vendor Name",
    ["/\\nTO:\\s*\\n([A-Za-z\\s&,\\.]+)\\s*\\n/im",
     "/^TO:\\s*\\n([A-Za-z\\s&,\\.]+)\\s*\\n/im",
     "/BILL\\s+TO:\\s*\\n([^\\n]+)/i",
     "/(?:^|\\n)([A-Za-z\\s,&]+(?:LLC|Inc|Corp|Ltd|Co\\.|international))/im",
     "/Vendor[:\\s]*\\n([^\\n]+)/i"]),
   ("Vendor Address",
    ["/\\nTO:\\s*\\n[^\\n]+\\s*\\n([^\\n]+(?:\\n[^\\n]+)*?)(?=\\n[a-z@]|\\nSHIP\\s+TO|\\n\\s*\\n)/i",
     "/^TO:\\s*\\n[^\\n]+\\s*\\n([^\\n]+(?:\\n[^\\n]+)*?)(?=\\n[a-z@]|\\nSHIP\\s+TO|\\n\\s*\\n)/i",
     "/BILL\\s+TO:\\s*\\n[^\\n]+\\n([^\\n]+(?:\\n[^\\n]+)*?)(?=\\nPhone|TO:|$)/i",
     "/(\\d+\\s+[A-Za-z\\s]+\\n[A-Za-z\\s]+\\s+[A-Z]\x7b2\x7d\\s+\\d\x7b5\x7d)/m"]),
   ("Ship To Address",
    ["/SHIP\\s+TO:\\s*\\n([^\\n]+(?:\\n[^\\n]+)*?)(?=\\nPhone|\\n\\s*\\n|P\\.O\\.|$)/i",
     "/Ship\\s+To\\s+Address[:\\s]*[^\\n]*\\n([^\\n]+(?:\\n[^\\n]+)*?)(?=\\n\\s*\\n|\\nReq\\s+Date|$)/i"]),
   ("Order Date",
    ["/(\\d\x7b4\x7d-\\d\x7b2\x7d-\\d\x7b2\x7d)/",
     "/P\\.O\\.\\s+DATE\\s+[^\\n]*\\n[^\\n]*\\n([^\\n\\s]+)/i",
     "/Order\\s+Date[:\\s]*(\\d\x7b2\x7d-\\d\x7b2\x7d-\\d\x7b2,4\x7d)/i",
     "/(\\d\x7b2\x7d-[A-Za-z]\x7b3\x7d-\\d\x7b4\x7d)/i"]),
   ("Required Date",
    ["/Req\\s+Date[:\\s]*(\\d\x7b2\x7d-\\d\x7b2\x7d-\\d\x7b2,4\x7d)/i",
     "/Required[:\\s]*(\\d\x7b2\x7d-\\d\x7b2\x7d-\\d\x7b2,4\x7d)/i"]),
   ("Total Amount",
    ["/GRAND\\s+TOTAL\\s*\\$?([0-9,]+\\.?\\d\x7b0,2\x7d)/i",
     "/Order\\s+Total[:\\s]*\\$?\\s*([0-9,]+\\.?\\d\x7b0,2\x7d)/i",
     "/Total[:\\s]*\\$?\\s*([0-9,]+\\.?\\d\x7b0,2\x7d)/i"]),
   ("Subtotal",
    ["/SUBTOTAL\\s*\\$?\\s*([0-9,]+\\.?\\d\x7b0,2\x7d)/i",
     "/Sub\\s+Total[:\\s]*\\$?\\s*([0-9,]+\\.?\\d\x7b0,2\x7d)/i",
     "/Subtotal[:\\s]*\\$?\\s*([0-9,]+\\.?\\d\x7b0,2\x7d)/i"]),
   ("Phone Number",
    ["/Phone[:\\s]*(\\(\\d\x7b3\x7d\\)\\s*\\d\x7b3\x7d-\\d\x7b4\x7d)/i",
     "/Phone[:\\s]*(\\d\x7b3\x7d-\\d\x7b3\x7d-\\d\x7b4\x7d)/i",
     "/Phone[:\\s]*(\\d\x7b3\x7d\\.\\d\x7b3\x7d\\.\\d\x7b4\x7d)/i",
     "/(\\(\\d\x7b3\x7d\\)\\s*\\d\x7b3\x7d-\\d\x7b4\x7d)/",
     "/(\\d\x7b3\x7d-\\d\x7b3\x7d-\\d\x7b4\x7d)/",
     "/(\\d\x7b3\x7d\\.\\d\x7b3\x7d\\.\\d\x7b4\x7d)/"]),
   ("Fax Number",
    ["/Fax[:\\s]*(\\(\\d\x7b3\x7d\\)\\s*\\d\x7b3\x7d-\\d\x7b4\x7d)/i",
     "/Fax[:\\s]*(\\d\x7b3\x7d-\\d\x7b3\x7d-\\d\x7b4\x7d)/i"]),
   ("Ship Via",
    ["/SHIPPED\\s+VIA[:\\s]*([A-Z0-9\\s]+)/i",
     "/Ship\\s*Via[:\\s]*([A-Z0-9]+)/i",
     "/ShipVia[:\\s]*([A-Z0-9]+)/i"])]

/-- An extracted key-value field with its confidence. -/
structure ExtractedField where
  key : String
  value : String
  confidence : ℚ
deriving Repr, DecidableEq

/-- Inner pattern loop of `parseDocumentFields` (lines 475-506): the
first pattern whose truthy first capture survives post-processing
non-empty wins; a pattern whose processed value is empty does not set
`found`, so the scan continues with the next pattern. -/
def firstPrimary (matchFn : MatchFn) (text fieldName : String) :
    List String → Option String
  | [] => none
  | pat :: rest =>
    match jsG1 (matchFn pat text) with
    | some captured =>
      let v := processPrimaryValue fieldName captured
      if v ≠ "" then some v else firstPrimary matchFn text fieldName rest
    | none => firstPrimary matchFn text fieldName rest

/-- Function `extractFieldWithSimplePattern` (lines 530-573): hand-tuned
fallback extraction per field name; returns the JavaScript string-or-null
result. -/
def extractFieldWithSimplePattern (matchFn : MatchFn) (text fieldName : String) :
    Option String :=
  if fieldName = "PO Number" then
    match jsG1raw (matchFn "/\\b(PR\\d\x7b6\x7d)\\b/" text) with
    | some v => some v
    | none =>
      match jsG1raw (matchFn "/(PR\\d\x7b6\x7d)/" text) with
      | some v => some v
      | none =>
        match jsG1raw (matchFn "/\\b(PR\\d+)\\b/" text) with
        | some v => some v
        | none =>
          match jsG1raw (matchFn "/PO\\s+No\\.?[:\\s]*([A-Z0-9]+)/i" text) with
          | some v => some v
          | none => none
  else if fieldName = "Vendor Name" then
    match jsG1raw (matchFn "/(Barkman\\s+Honey,\\s+LLC)/i" text) with
    | some v => some v
    | none =>
      match jsG1raw (matchFn "/(Phenix\\s+Label)/i" text) with
      | some v => some v
      | none => none
  else if fieldName = "Ship To Address" then
    match matchFn "/Bennett's\\s+Honey\\s+Farm[^\\n]*\\n\\s*3176\\s+Honey\\s+Lane[^\\n]*\\n\\s*Filmore\\s+CA\\s+93015/i" text with
    | some mm => some ⟨jsTrimL (collapseWsL mm.m0.data)⟩
    | none => none
  else if fieldName = "Vendor Address" then
    match matchFn "/Phenix\\s+Label[^\\n]*\\n[^\\n]*Lori\\s+Hilton[^\\n]*\\n[^\\n]*11610\\s+S\\.\\s+Alden[^\\n]*\\n[^\\n]*Olathe\\s+KS\\s+66062/i" text with
    | some mm => some ⟨jsTrimL (replNlL (collapseWsL mm.m0.data))⟩
    | none => none
  else if fieldName = "Total Amount" then
    match jsG1raw (matchFn "/Order\\s+Total[:\\s]*([0-9,]+\\.?\\d\x7b0,2\x7d)/i" text) with
    | some v => some v
    | none => none
  else if fieldName = "Subtotal" then
    match jsG1raw (matchFn "/Sub\\s+Total[:\\s]*([0-9,]+\\.?\\d\x7b0,2\x7d)/i" text) with
    | some v => some v
    | none => none
  else none

/-- Per-field body of the `parseDocumentFields` extraction loop
(lines 473-525): primary patterns, then the simple fallback at 0.70,
then the sentinel entry at 0.0. -/
def fieldForEntry (matchFn : MatchFn) (text : String)
    (entry : String × List String) : ExtractedField :=
  match firstPrimary matchFn text entry.1 entry.2 with
  | some v => ⟨entry.1, v, calculateFieldConfidence entry.1 v⟩
  | none =>
    match extractFieldWithSimplePattern matchFn text entry.1 with
    | some sv =>
      if sv ≠ "" then ⟨entry.1, sv, mkRat 70 100⟩
      else ⟨entry.1, "Not found in document", 0⟩
    | none => ⟨entry.1, "Not found in document", 0⟩

/-- Function `parseDocumentFields` (lines 405-528). -/
def parseDocumentFields (matchFn : MatchFn) (text : String) :
    List ExtractedField :=
  fieldPatterns.map (fieldForEntry matchFn text)

/-- The eleven known field names, in table order. -/
def knownFieldNames : List String :=
  ["PO Number", "Vendor Name", "Vendor Address", "Ship To Address",
   "Order Date", "Required Date", "Total Amount", "Subtotal",
   "Phone Number", "Fax Number", "Ship Via"]

/-! Section: splitting text into lines, as done by the split('\n') calls. -/

/-- Worker for splitting on newline characters. -/
def splitNlGo (cur : List Char) : List Char → List (List Char)
  | [] => [cur.reverse]
  | c :: rest =>
    if c = '\n' then cur.reverse :: splitNlGo [] rest
    else splitNlGo (c :: cur) rest

/-- JavaScript split('\n'). -/
def splitNl (s : String) : List String := (splitNlGo [] s.data).map (⟨·⟩)

/-! Section: the line-item reconstructor `extractLineItems`
(lines 631-793).  Its regexes are simple and anchored, so they are
embedded directly as character-level tests. -/

/-- Digit-run test for the anchored patterns over full lines. -/
def allDigits (l : List Char) : Bool := !l.isEmpty && l.all Char.isDigit

/-- Value of a digit string, as computed by parseInt on a digit run. -/
def digitsToNat (l : List Char) : Nat :=
  l.foldl (fun a c => a * 10 + (c.toNat - 48)) 0

/-- Test `/^[A-Z]\x7b1,3\x7d$/`: one to three uppercase ASCII letters. -/
def isUpper13 (l : List Char) : Bool :=
  !l.isEmpty && l.length ≤ 3 && l.all (fun c => 'A' ≤ c && c ≤ 'Z')

/-- Test `/^\d\x7b4\x7d-\d\x7b2\x7d-\d\x7b2\x7d$/`: an ISO date shape. -/
def isIsoDate (l : List Char) : Bool :=
  match l with
  | [y1, y2, y3, y4, h1, m1, m2, h2, d1, d2] =>
    y1.isDigit && y2.isDigit && y3.isDigit && y4.isDigit && h1 = '-' &&
    m1.isDigit && m2.isDigit && h2 = '-' && d1.isDigit && d2.isDigit
  | _ => false

/-- Test `/^\d/`: the line starts with a digit. -/
def startsWithDigit : List Char → Bool
  | [] => false
  | c :: _ => c.isDigit

/-- Test `/^\d+%$/`: a digit run followed by a percent sign. -/
def isDigitsPercent (l : List Char) : Bool :=
  match l.reverse with
  | '%' :: restRev => !restRev.isEmpty && restRev.all Char.isDigit
  | _ => false

/-- Capture attempt of `/\$\s*([0-9,]+\.?\d\x7b0,2\x7d)/` at a position
just after a dollar sign: skip whitespace, take the maximal digit/comma
run, then optionally a dot and up to two digits. -/
def capAfterDollar (rest : List Char) : Option (List Char) :=
  let r := rest.dropWhile jsWs
  let digs := r.takeWhile (fun c => c.isDigit || c = ',')
  if digs.isEmpty then none
  else
    match r.drop digs.length with
    | '.' :: r3 => some (digs ++ '.' :: (r3.takeWhile Char.isDigit).take 2)
    | _ => some digs

/-- First capture of `/\$\s*([0-9,]+\.?\d\x7b0,2\x7d)/`, scanning left to
right for a dollar sign where the remainder of the pattern matches. -/
def priceCapture : List Char → Option (List Char)
  | [] => none
  | c :: rest =>
    if c = '$' then
      match capAfterDollar rest with
      | some v => some v
      | none => priceCapture rest
    else priceCapture rest

/-- Fixed-schema line item (lines 689-700). -/
structure LineItem where
  itemNumber : String
  unit : String
  quantity : String
  partNumber : String
  description : String
  dueDate : String
  price : String
  taxPercent : String
  discount : String
  lineTotal : String
deriving Repr, DecidableEq

/-- Trimmed data line at relative offset j from the item-number line,
empty when out of range (the loop guard `i + j < lines.length`). -/
def dataLineAt (lines : List String) (i j : Nat) : String :=
  if i + j < lines.length then jsTrim (lines.getD (i + j) "") else ""

/-- Population of one line item from the 11-line window after an
item-number line (lines 689-778).  Empty data lines are skipped by the
`continue`, hence every case also requires a non-empty line. -/
def buildItem (lines : List String) (i : Nat) (num : String) : LineItem :=
  let d1 := dataLineAt lines i 1
  let d2 := dataLineAt lines i 2
  let d4 := dataLineAt lines i 4
  let d5 := dataLineAt lines i 5
  let d6 := dataLineAt lines i 6
  let d7 := dataLineAt lines i 7
  let d8 := dataLineAt lines i 8
  let d9 := dataLineAt lines i 9
  let d10 := dataLineAt lines i 10
  let d11 := dataLineAt lines i 11
  let descOk := fun (v : String) =>
    v ≠ "" && !startsWithDigit v.data && !v.data.contains '$' && !isIsoDate v.data
  let desc1 := if descOk d5 then d5 else ""
  let desc := if descOk d6 then (if desc1 ≠ "" then desc1 ++ " " ++ d6 else d6) else desc1
  { itemNumber := num
    unit := if d1 ≠ "" && (d1 = "EA" || isUpper13 d1.data) then d1 else ""
    quantity := if d2 ≠ "" && allDigits d2.data then d2 else ""
    partNumber := if d4 ≠ "" && allDigits d4.data && 10 ≤ d4.data.length then d4 else ""
    description := desc
    dueDate := if d7 ≠ "" && isIsoDate d7.data then d7 else ""
    price := match priceCapture d8.data with
      | some c => ⟨c⟩
      | none => ""
    taxPercent := if d9 ≠ "" && allDigits d9.data && digitsToNat d9.data ≤ 30 then d9 ++ "%" else ""
    discount := if d10 ≠ "" && isDigitsPercent d10.data then d10 else ""
    lineTotal := match priceCapture d11.data with
      | some c => ⟨c⟩
      | none => "" }

/-- Header window string: the trims of the up to ten lines from index i,
each followed by a space (lines 646-649). -/
def headerWindow (lines : List String) (i : Nat) : String :=
  ((List.range 10).filter (fun j => i + j < lines.length)).foldl
    (fun acc j => acc ++ jsTrim (lines.getD (i + j) "") ++ " ") ""

/-- Header scan of `extractLineItems` (lines 640-658): find the first
line equal to ITEM whose 10-line window mentions all four header tokens;
the result is the index just past the 10 header lines. -/
def findHeaderGo (lines : List String) : Nat → Nat → Option Nat
  | 0, _ => none
  | fuel + 1, i =>
    if i < lines.length then
      if jsTrim (lines.getD i "") = "ITEM" then
        let hp := headerWindow lines i
        if containsSubS hp "ITEM" && containsSubS hp "UNIT" &&
           containsSubS hp "QTY" && containsSubS hp "DESCRIPTION" then
          some (i + 10)
        else findHeaderGo lines fuel (i + 1)
      else findHeaderGo lines fuel (i + 1)
    else none

/-- Header-end index for `extractLineItems`, when a header is found. -/
def findHeaderEnd (lines : List String) : Option Nat :=
  findHeaderGo lines lines.length 0

/-- Item scan of `extractLineItems` (lines 668-789), a for loop whose
index advances by 1, or by 12 past a recognised item block; the fuel
bounds the iteration count by the number of lines. -/
def parseItemsGo (lines : List String) (hEnd : Nat) : Nat → Nat → List LineItem
  | 0, _ => []
  | fuel + 1, i =>
    if i < lines.length then
      let line := jsTrim (lines.getD i "")
      if containsSubS line "SUBTOTAL" || containsSubS line "GRAND TOTAL" ||
         (line = "ITEM" && decide (hEnd + 20 < i)) then []
      else if line = "" then parseItemsGo lines hEnd fuel (i + 1)
      else if allDigits line.data && 2 ≤ line.data.length && line.data.length ≤ 3 &&
              10 ≤ digitsToNat line.data then
        let item := buildItem lines i line
        (if item.unit ≠ "" || item.quantity ≠ "" || item.partNumber ≠ "" ||
            item.description ≠ "" then [item] else []) ++
          parseItemsGo lines hEnd fuel (i + 12)
      else parseItemsGo lines hEnd fuel (i + 1)
    else []

/-- Function `extractLineItems` (lines 631-793). -/
def extractLineItems (text : String) : List LineItem :=
  let lines := splitNl text
  match findHeaderEnd lines with
  | none => []
  | some hEnd => parseItemsGo lines hEnd (lines.length + 1) hEnd

/-! Section: the generic table fallback `extractGenericTables`
(lines 795-826). -/

/-- Worker for the split on `/\s\x7b2,\x7d|\t/`: a delimiter is a
whitespace run of length at least two (the greedy `\s\x7b2,\x7d` consumes
the whole run), or a single tab.  The flag marks that the tail of a
delimiter run is being consumed. -/
def splitColsGo : Bool → List Char → List Char → List (List Char)
  | _, [], cur => [cur.reverse]
  | skipping, c :: rest, cur =>
    if skipping && jsWs c then splitColsGo true rest cur
    else if jsWs c && ((rest.takeWhile jsWs).length + 1 ≥ 2 || c = '\t') then
      cur.reverse :: splitColsGo true rest []
    else splitColsGo false rest (c :: cur)

/-- JavaScript split on `/\s\x7b2,\x7d|\t/`. -/
def splitColsS (s : String) : List String := (splitColsGo false s.data []).map (⟨·⟩)

/-- Cell record of a generic table (lines 805-810). -/
structure GCell where
  content : String
  rowIndex : Nat
  columnIndex : Nat
  confidence : ℚ
deriving Repr, DecidableEq

/-- Generic table record (lines 814-819).  The column count is the
maximum over the rows of their column split length; the rows are
non-empty when a table is built, so seeding the maximum with 0 agrees
with the spread Math.max call. -/
structure GTable where
  tableName : String
  rowCount : Nat
  columnCount : Nat
  cells : List GCell
deriving Repr, DecidableEq

/-- Loop of `extractGenericTables` (lines 801-823).  The accumulator is
the currentTable cell list.  Note the source returns directly after the
loop without flushing a pending run. -/
def extractGenericTablesGo : List String → List GCell → List GTable
  | [], _ => []
  | line :: rest, currentTable =>
    let t := jsTrim line
    if (splitColsS t).length ≥ 2 && t ≠ "" then
      extractGenericTablesGo rest (currentTable ++ [⟨t, currentTable.length, 0, mkRat 80 100⟩])
    else if currentTable.length > 0 then
      (if currentTable.length ≥ 2 then
        [⟨"Generic Table", currentTable.length,
          (currentTable.map (fun row => (splitColsS row.content).length)).foldl max 0,
          currentTable⟩]
       else []) ++ extractGenericTablesGo rest []
    else extractGenericTablesGo rest []

/-- Function `extractGenericTables` (lines 795-826). -/
def extractGenericTables (text : String) : List GTable :=
  extractGenericTablesGo (splitNl text) []

/-- Modelled from the spec: the runs of consecutive qualifying lines
that are terminated by a non-qualifying line, keeping those of length at
least two (the generic-table emission rule in the spec's words); a run
still open at the end of the text is not emitted. -/
def terminatedRuns (q : String → Bool) : List String → List String → List (List String)
  | [], _ => []
  | l :: rest, run =>
    if q l then terminatedRuns q rest (run ++ [l])
    else (if run.length ≥ 2 then [run] else []) ++ terminatedRuns q rest []

/-- Qualification of a trimmed line for the generic table detector. -/
def qualifiesAsRow (t : String) : Bool :=
  (splitColsS t).length ≥ 2 && t ≠ ""

/-! Section: AI response normalisation, `convertAIResponseToFields` and
`parseAITextResponse` (lines 267-345).  The JSON value is the result of
the host JSON.parse on the fence-stripped AI content; it is taken as an
inductive JSON tree.  JSON numbers are restricted to integers, whose
String(value) rendering is the decimal representation; the claims under
verification do not depend on non-integral number formatting. -/

/-- Parsed JSON value reaching `convertAIResponseToFields`. -/
inductive JsonVal where
  | str (s : String)
  | num (n : Int)
  | bool (b : Bool)
  | null
  | arr (elems : List JsonVal)
  | obj (entries : List (String × JsonVal))

/-- Key-variant lookup table `fieldMappings` (lines 271-298), in source
order. -/
def fieldMappings : List (String × String) :=
  [("vendor", "Vendor Name"),
   ("vendorName", "Vendor Name"),
   ("vendor_name", "Vendor Name"),
   ("vendorAddress", "Vendor Address"),
   ("vendor_address", "Vendor Address"),
   ("shipToAddress", "Ship To Address"),
   ("ship_to_address", "Ship To Address"),
   ("shipping_address", "Ship To Address"),
   ("poNumber", "PO Number"),
   ("po_number", "PO Number"),
   ("purchaseOrder", "PO Number"),
   ("invoiceNumber", "Invoice Number"),
   ("invoice_number", "Invoice Number"),
   ("orderDate", "Order Date"),
   ("order_date", "Order Date"),
   ("date", "Order Date"),
   ("totalAmount", "Total Amount"),
   ("total_amount", "Total Amount"),
   ("total", "Total Amount"),
   ("subtotal", "Subtotal"),
   ("sub_total", "Subtotal"),
   ("phone", "Phone Number"),
   ("phoneNumber", "Phone Number"),
   ("phone_number", "Phone Number"),
   ("fax", "Fax Number"),
   ("faxNumber", "Fax Number")]

/-- Prefixed key path: the ternary `prefix ? prefix_key : key`. -/
def jsTernaryKey (pfx k : String) : String :=
  if pfx ≠ "" then pfx ++ "_" ++ k else k

/-- Canonical key resolution `fieldMappings[fieldKey] || fieldMappings[key] || key`
(line 307); all mapped names are non-empty, so truthiness is presence. -/
def mappedKey (pfx k : String) : String :=
  match fieldMappings.lookup (jsTernaryKey pfx k) with
  | some m => m
  | none =>
    match fieldMappings.lookup k with
    | some m => m
    | none => k

/-- Recursive flattener `extractFromObject` (lines 301-316): plain
objects recurse with the prefixed key path, string and number leaves
emit a field at confidence 0.90, and boolean, null and array values are
passed over. -/
def extractFromObject (entries : List (String × JsonVal)) (pfx : String) :
    List ExtractedField :=
  match entries with
  | [] => []
  | (k, v) :: rest =>
    (match v with
     | .obj entries2 => extractFromObject entries2 (jsTernaryKey pfx k)
     | .str sv => [⟨mappedKey pfx k, sv, mkRat 90 100⟩]
     | .num n => [⟨mappedKey pfx k, toString n, mkRat 90 100⟩]
     | _ => []) ++ extractFromObject rest pfx

/-- Function `convertAIResponseToFields` (lines 267-320).  The top-level
call Object.entries(aiData) enumerates object entries, array elements by
decimal index, string characters by index, yields nothing for numbers
and booleans, and throws on null. -/
def convertAIResponseToFields : JsonVal → Except String (List ExtractedField)
  | .null => .error "Cannot convert undefined or null to object"
  | .obj entries => .ok (extractFromObject entries "")
  | .arr elems =>
    .ok (extractFromObject (elems.enum.map (fun iv => (toString iv.1, iv.2))) "")
  | .str sv =>
    .ok (extractFromObject (sv.data.enum.map (fun ic => (toString ic.1, JsonVal.str ⟨[ic.2]⟩))) "")
  | .num _ => .ok (extractFromObject [] "")
  | .bool _ => .ok (extractFromObject [] "")

/-- Dot-matchable character for the line pattern of
`parseAITextResponse` (no newline, carriage return, or line/paragraph
separator). -/
def dotOkChar (c : Char) : Bool :=
  !(c = '\n' || c = '\r' || c = '\u2028' || c = '\u2029')

/-- Backtracking tail of `[:\-]\s*(.+)$`: the greedy whitespace skip
gives characters back until the rest is a non-empty dot-matchable run to
the end of the line. -/
def kvTail (rest : List Char) : Nat → Option (List Char)
  | 0 => if !rest.isEmpty && rest.all dotOkChar then some rest else none
  | i + 1 =>
    let r := rest.drop (i + 1)
    if !r.isEmpty && r.all dotOkChar then some r else kvTail rest i

/-- Line match `/^([^::\-]+)[:\-]\s*(.+)$/` (line 329): the key is the
non-empty run before the first colon or dash, the separator is that
character, and the value is the backtracked tail. -/
def jsMatchKV (l : List Char) : Option (List Char × List Char) :=
  let keyPart := l.takeWhile (fun c => !(c = ':' || c = '-'))
  if keyPart.isEmpty then none
  else
    match l.drop keyPart.length with
    | [] => none
    | _sep :: rest =>
      match kvTail rest (rest.takeWhile jsWs).length with
      | some valPart => some (keyPart, valPart)
      | none => none

/-- Function `parseAITextResponse` (lines 322-345). -/
def parseAITextResponse (aiText : String) : List ExtractedField :=
  (splitNl aiText).filterMap (fun line =>
    match jsMatchKV line.data with
    | some kv =>
      let key := jsTrim ⟨kv.1⟩
      let value := jsTrim ⟨kv.2⟩
      if key ≠ "" && value ≠ "" && value ≠ "N/A" && value ≠ "Not found" then
        some ⟨key, value, mkRat 85 100⟩
      else none
    | none => none)

/-! Section: the deployment/API-version probe loop of `callAIFoundryAPI`
(lines 94-265).  The axios transport is abstracted as a call oracle from
a deployment/version pair to either the AI content string of a
successful response or an axios error (optional response status and
status text, and a message).  The success-branch post-processing of the
content is covered by `convertAIResponseToFields` above; the loop result
here carries the raw content together with the successful pair. -/

/-- Axios failure as observed by the loop: optional response (status and
status text) plus the error message. -/
structure AxiosError where
  response : Option (Nat × String)
  message : String
deriving Repr, DecidableEq

/-- Test on line 249: a response with HTTP status 401 or 403. -/
def isAuthError (e : AxiosError) : Bool :=
  match e.response with
  | some sv => sv.1 = 401 || sv.1 = 403
  | none => false

/-- Message of line 250; only built when the response is present. -/
def authFailMsg (e : AxiosError) : String :=
  match e.response with
  | some sv =>
    "Authentication failed: " ++ toString sv.1 ++ " " ++ sv.2 ++
      ". Please check your API key."
  | none => ""

/-- Aggregate message of line 260, with JavaScript undefined printing
and the `statusText || message` fallback. -/
def aggregateMsg (last : Option AxiosError) : String :=
  let p1 := match last with
    | some e =>
      match e.response with
      | some sv => toString sv.1
      | none => "undefined"
    | none => "undefined"
  let p2 := match last with
    | some e =>
      match e.response with
      | some sv => if sv.2 ≠ "" then sv.2 else e.message
      | none => e.message
    | none => "undefined"
  "All deployment/API version combinations failed. Last error: " ++ p1 ++ " " ++ p2

/-- Nested probe loop (lines 124-260) over the flattened candidate
pairs, instrumented with the list of attempted pairs: success returns
immediately; a 401/403 aborts with the authentication error; any other
failure is recorded as the last error and the loop advances; exhaustion
raises the aggregate error. -/
def probeGo (call : String → String → Sum String AxiosError) :
    List (String × String) → Option AxiosError →
    Except String (String × String × String) × List (String × String)
  | [], lastError => (.error (aggregateMsg lastError), [])
  | dv :: rest, _lastError =>
    match call dv.1 dv.2 with
    | .inl content => (.ok (content, dv.1, dv.2), [dv])
    | .inr e =>
      if isAuthError e then (.error (authFailMsg e), [dv])
      else
        let r := probeGo call rest (some e)
        (r.1, dv :: r.2)

/-- Candidate deployment names (lines 104-112). -/
def deploymentOptionsDefault : List String :=
  ["gpt-4o", "gpt-4o-mini", "gpt-4", "gpt-4-turbo", "gpt-35-turbo",
   "gpt-35-turbo-16k", "text-davinci-003"]

/-- Candidate API versions (lines 114-119). -/
def apiVersionsDefault : List String :=
  ["2024-08-01-preview", "2024-02-15-preview", "2023-12-01-preview",
   "2023-05-15"]

/-- JavaScript truthiness of an optional string configuration value. -/
def jsTruthy : Option String → Bool
  | some sv => sv ≠ ""
  | none => false

/-- Deployment candidates after the configuration check of line 98. -/
def probeDeployments (dn av : Option String) : List String :=
  if jsTruthy dn && jsTruthy av then [dn.getD ""] else deploymentOptionsDefault

/-- API-version candidates after the configuration check of line 98. -/
def probeVersions (dn av : Option String) : List String :=
  if jsTruthy dn && jsTruthy av then [av.getD ""] else apiVersionsDefault

/-- Ordered candidate pairs visited by the nested loops of lines
128-129: deployments outer, versions inner. -/
def probePairs (dn av : Option String) : List (String × String) :=
  ((probeDeployments dn av).map
    (fun d => (probeVersions dn av).map (fun v => (d, v)))).flatten

/-- Function `callAIFoundryAPI` (lines 77-265), from the point where the
PDF text is available: the empty-text guard of line 86, the probe loop,
and the outer wrapper of line 263 prefixing every raised error. -/
def callAIFoundryAPI (dn av : Option String) (pdfText : String)
    (call : String → String → Sum String AxiosError) :
    Except String (String × String × String) × List (String × String) :=
  if jsTrim pdfText = "" then
    (.error ("AI Foundry API call failed: " ++ "No text content found in PDF"), [])
  else
    let r := probeGo call (probePairs dn av) none
    (match r.1 with
     | .ok x => .ok x
     | .error msg => .error ("AI Foundry API call failed: " ++ msg), r.2)

/-! Section: the orchestrator `extractData` (lines 15-75).  The AI path
and the local path both end in filesystem effects (artifact write,
temp-file delete) outside the embedding; the envelope assembly and the
branching are embedded.  The AI result is the outcome of
`callAIFoundryAPI`, the local result the value computed by
`processWithLocalLogic`, and the timestamp an input. -/

/-- Error-detail record attached on the fallback path (lines 59-63). -/
structure AiErrorDetails where
  error : String
  timestamp : String
  fallbackUsed : Bool
deriving Repr, DecidableEq

/-- Response envelope of `extractData`, instrumented with whether the
local extractor ran. -/
structure ExtractEnvelope (α β : Type) where
  success : Bool
  message : String
  data : α ⊕ β
  aiErrorDetails : Option AiErrorDetails
  localRan : Bool
deriving DecidableEq

/-- Function `extractData` (lines 15-75): local-only when the key or URL
is falsy, otherwise the AI result, falling back to the local result on
any AI error. -/
def extractData {α β : Type} (apiKey apiUrl : Option String)
    (aiResult : Except String α) (localData : β) (now : String) :
    ExtractEnvelope α β :=
  if !jsTruthy apiKey || !jsTruthy apiUrl then
    { success := true
      message := "Document processed successfully with local processing (AI Foundry not configured)"
      data := .inr localData
      aiErrorDetails := none
      localRan := true }
  else
    match aiResult with
    | .ok a =>
      { success := true
        message := "Document processed successfully with AI Foundry"
        data := .inl a
        aiErrorDetails := none
        localRan := false }
    | .error e =>
      { success := true
        message := "Document processed successfully with local processing (AI Foundry failed: " ++ e ++ ")"
        data := .inr localData
        aiErrorDetails := some ⟨e, now, true⟩
        localRan := true }

/-! Section: helper lemmas about the whitespace machinery. -/

/-- No two adjacent whitespace characters. -/
def noTwoWs (a b : Char) : Prop := ¬(jsWs a = true ∧ jsWs b = true)

theorem dropWhile_head? {p : Char → Bool} :
    ∀ (l : List Char) (c : Char), (l.dropWhile p).head? = some c → p c = false := by
  intro l
  induction l with
  | nil => intro c h; simp [List.dropWhile] at h
  | cons a t ih =>
    intro c h
    by_cases hp : p a
    · rw [List.dropWhile_cons_of_pos hp] at h
      exact ih c h
    · rw [List.dropWhile_cons_of_neg hp] at h
      simp at h
      subst h
      simpa using hp

theorem dropWhile_eq_self {p : Char → Bool} (l : List Char)
    (h : ∀ c, l.head? = some c → p c = false) : l.dropWhile p = l := by
  cases l with
  | nil => rfl
  | cons a t =>
    have := h a (by rfl)
    simp [List.dropWhile_cons, this]

theorem collapse_true_head :
    ∀ (l : List Char) (c : Char), (collapseWsGo true l).head? = some c → jsWs c = false := by
  intro l
  induction l with
  | nil => intro c h; simp [collapseWsGo] at h
  | cons a t ih =>
    intro c h
    by_cases hw : jsWs a
    · rw [collapseWsGo, if_pos hw, if_pos rfl] at h
      exact ih c h
    · rw [collapseWsGo, if_neg hw] at h
      have hac : a = c := by simpa using h
      subst hac
      simpa using hw

theorem collapse_chain' :
    ∀ (l : List Char) (b : Bool), List.Chain' noTwoWs (collapseWsGo b l) := by
  intro l
  induction l with
  | nil => intro b; cases b <;> simp [collapseWsGo]
  | cons a t ih =>
    intro b
    by_cases hw : jsWs a
    · cases b with
      | true =>
        rw [collapseWsGo, if_pos hw, if_pos rfl]
        exact ih true
      | false =>
        rw [collapseWsGo, if_pos hw, if_neg (by simp)]
        rw [List.chain'_cons']
        refine ⟨?_, ih true⟩
        intro y hy
        have := collapse_true_head t y hy
        intro hcon
        rw [this] at hcon
        exact absurd hcon.2 (by simp)
    · cases b with
      | true =>
        rw [collapseWsGo, if_neg hw]
        rw [List.chain'_cons']
        refine ⟨?_, ih false⟩
        intro y hy
        intro hcon
        exact absurd hcon.1 (by simpa using hw)
      | false =>
        rw [collapseWsGo, if_neg hw]
        rw [List.chain'_cons']
        refine ⟨?_, ih false⟩
        intro y hy
        intro hcon
        exact absurd hcon.1 (by simpa using hw)

theorem collapse_ws_space :
    ∀ (b : Bool) (l : List Char) (c : Char),
      c ∈ collapseWsGo b l → jsWs c = true → c = ' ' := by
  intro b l
  induction l generalizing b with
  | nil => intro c h; simp [collapseWsGo] at h
  | cons a t ih =>
    intro c h hws
    by_cases hw : jsWs a
    · cases b with
      | true =>
        rw [collapseWsGo, if_pos hw, if_pos rfl] at h
        exact ih true c h hws
      | false =>
        rw [collapseWsGo, if_pos hw, if_neg (by simp)] at h
        rcases List.mem_cons.mp h with h1 | h2
        · exact h1
        · exact ih true c h2 hws
    · rw [collapseWsGo, if_neg hw] at h
      rcases List.mem_cons.mp h with h1 | h2
      · subst h1; rw [hws] at hw; simp at hw
      · exact ih false c h2 hws

theorem replNl_eq_self : ∀ (l : List Char), '\n' ∉ l → replNlGo false l = l := by
  intro l
  induction l with
  | nil => intro _; rfl
  | cons a t ih =>
    intro h
    have ha : a ≠ '\n' := fun hc => h (hc ▸ List.mem_cons_self a t)
    have ht : '\n' ∉ t := fun hc => h (List.mem_cons_of_mem a hc)
    rw [replNlGo, if_neg (by simp), if_neg ha, ih ht]

theorem mem_jsTrimL {l : List Char} {c : Char} (h : c ∈ jsTrimL l) : c ∈ l := by
  unfold jsTrimL at h
  rw [List.mem_reverse] at h
  have h2 := (List.dropWhile_suffix jsWs).subset h
  rw [List.mem_reverse] at h2
  exact (List.dropWhile_suffix jsWs).subset h2

theorem noTwoWs_symm {a b : Char} (h : noTwoWs a b) : noTwoWs b a := by
  intro hc
  exact h ⟨hc.2, hc.1⟩

theorem chain'_jsTrimL {l : List Char} (h : List.Chain' noTwoWs l) :
    List.Chain' noTwoWs (jsTrimL l) := by
  unfold jsTrimL
  have h1 : List.Chain' noTwoWs (l.dropWhile jsWs) :=
    h.suffix (List.dropWhile_suffix jsWs)
  have h2 : List.Chain' noTwoWs ((l.dropWhile jsWs).reverse) := by
    rw [List.chain'_reverse]
    exact h1.imp fun a b hab => noTwoWs_symm hab
  have h3 : List.Chain' noTwoWs (((l.dropWhile jsWs).reverse).dropWhile jsWs) :=
    h2.suffix (List.dropWhile_suffix jsWs)
  rw [List.chain'_reverse]
  exact h3.imp fun a b hab => noTwoWs_symm hab

theorem stripTrail_eq_self : ∀ (l : List Char), '\n' ∉ l → stripTrailNlGo l = l := by
  intro l
  induction l with
  | nil => intro _; rfl
  | cons a t ih =>
    intro h
    have ha : a ≠ '\n' := fun hc => h (hc ▸ List.mem_cons_self a t)
    have ht : '\n' ∉ t := fun hc => h (List.mem_cons_of_mem a hc)
    rw [stripTrailNlGo, if_neg (by simp [ha])]
    rw [ih ht]

theorem stripLead_eq_self (l : List Char) (h : '\n' ∉ l) : stripLeadNl l = l := by
  unfold stripLeadNl
  have hp := List.takeWhile_prefix (l := l) jsWs
  have : '\n' ∉ l.takeWhile jsWs := fun hc => h (hp.subset hc)
  simp only [this, if_neg]
  simp [this]

theorem stripNlEdges_eq_self (l : List Char) (h : '\n' ∉ l) : stripNlEdgesL l = l := by
  unfold stripNlEdgesL
  rw [stripLead_eq_self l h, stripTrail_eq_self l h]

theorem head?_of_isPre {l m : List Char} {a : Char} (h : l <+: m)
    (hh : l.head? = some a) : m.head? = some a := by
  rcases h with ⟨t, ht⟩
  cases l with
  | nil => simp at hh
  | cons x xs =>
    simp at hh
    subst hh
    rw [← ht]
    rfl

theorem jsTrimL_head? (l : List Char) :
    ∀ c, (jsTrimL l).head? = some c → jsWs c = false := by
  intro c hc
  unfold jsTrimL at hc
  set y := l.dropWhile jsWs with hy
  have hpre : ((y.reverse.dropWhile jsWs).reverse) <+: y := by
    have hs : (y.reverse.dropWhile jsWs) <:+ y.reverse := List.dropWhile_suffix jsWs
    rcases hs with ⟨t, ht⟩
    refine ⟨t.reverse, ?_⟩
    have := congrArg List.reverse ht
    simpa using this
  have := head?_of_isPre hpre hc
  exact dropWhile_head? l c this

theorem jsTrimL_getLast? (l : List Char) :
    ∀ c, (jsTrimL l).getLast? = some c → jsWs c = false := by
  intro c hc
  unfold jsTrimL at hc
  rw [List.getLast?_reverse] at hc
  exact dropWhile_head? (l.dropWhile jsWs).reverse c hc

theorem jsTrimL_eq_self (l : List Char)
    (h1 : ∀ c, l.head? = some c → jsWs c = false)
    (h2 : ∀ c, l.getLast? = some c → jsWs c = false) : jsTrimL l = l := by
  unfold jsTrimL
  rw [dropWhile_eq_self l h1]
  rw [dropWhile_eq_self l.reverse (by intro c hc; rw [List.head?_reverse] at hc; exact h2 c hc)]
  simp

theorem jsTrimL_idem (l : List Char) : jsTrimL (jsTrimL l) = jsTrimL l :=
  jsTrimL_eq_self (jsTrimL l) (jsTrimL_head? l) (jsTrimL_getLast? l)

/-! Section: claims C7 and C8, about confidence scoring and address
post-processing. -/

/-- C7 counterexample.  The claim asserts that `calculateFieldConfidence`
returns 0.80 for every matched value of a field whose name contains none
of Number, Date, Address.  The literal sentinel text is capturable by the
letters-and-whitespace Vendor Name pattern (for instance in a document
reading TO:, newline, the sentinel text, newline, an at sign), yet the
guard on line 576 maps it to confidence 0.0, not 0.80. -/
theorem c7_sentinel_counterexample :
    containsSubS "Vendor Name" "Number" = false ∧
    containsSubS "Vendor Name" "Date" = false ∧
    containsSubS "Vendor Name" "Address" = false ∧
    calculateFieldConfidence "Vendor Name" "Not found in document" = 0 ∧
    (0 : ℚ) ≠ 0.80 := by
  refine ⟨by decide, by decide, by decide, by decide, by norm_num⟩

/-- C7 (amended): for every matched primary-pattern value other than the
literal not-found sentinel (which scores 0.0 by the guard on line 576),
the scoring is: Number/Date fields 0.95 on the strict pattern else 0.75;
otherwise Address fields 0.85 when longer than 10 characters else 0.60;
otherwise flat 0.80. -/
theorem calculateFieldConfidence_rules (fieldName value : String)
    (hne : value ≠ "") (hsent : value ≠ "Not found in document") :
    ((containsSubS fieldName "Number" || containsSubS fieldName "Date") = true →
      calculateFieldConfidence fieldName value =
        if strictIdPattern value.data then 0.95 else 0.75) ∧
    ((containsSubS fieldName "Number" || containsSubS fieldName "Date") = false →
      containsSubS fieldName "Address" = true →
      calculateFieldConfidence fieldName value =
        if 10 < value.data.length then 0.85 else 0.60) ∧
    ((containsSubS fieldName "Number" || containsSubS fieldName "Date") = false →
      containsSubS fieldName "Address" = false →
      calculateFieldConfidence fieldName value = 0.80) := by
  unfold calculateFieldConfidence
  rw [if_neg (by simp [hne, hsent])]
  refine ⟨?_, ?_, ?_⟩
  · intro h1
    rw [if_pos h1]
    by_cases hstrict : strictIdPattern value.data
    · rw [if_pos hstrict, if_pos hstrict, Rat.mkRat_eq_div]; norm_num
    · rw [if_neg hstrict, if_neg hstrict, Rat.mkRat_eq_div]; norm_num
  · intro h1 h2
    rw [if_neg (by simp [h1]), if_pos h2]
    by_cases hlen : 10 < value.data.length
    · rw [if_pos hlen, if_pos hlen, Rat.mkRat_eq_div]; norm_num
    · rw [if_neg hlen, if_neg hlen, Rat.mkRat_eq_div]; norm_num
  · intro h1 h2
    rw [if_neg (by simp [h1]), if_neg (by simp [h2]), Rat.mkRat_eq_div]
    norm_num

/-- Witness for the amended C7 rules at concrete inputs. -/
theorem calculateFieldConfidence_rules_witness :
    calculateFieldConfidence "PO Number" "PR028561" = 0.95 ∧
    calculateFieldConfidence "Vendor Address" "12 Long Street" = 0.85 ∧
    calculateFieldConfidence "Ship Via" "UPS" = 0.80 := by
  have h1 := calculateFieldConfidence_rules "PO Number" "PR028561"
    (by decide) (by decide)
  have h2 := calculateFieldConfidence_rules "Vendor Address" "12 Long Street"
    (by decide) (by decide)
  have h3 := calculateFieldConfidence_rules "Ship Via" "UPS"
    (by decide) (by decide)
  refine ⟨?_, ?_, ?_⟩
  · rw [h1.1 (by decide), if_pos (by decide)]
  · rw [h2.2.1 (by decide) (by decide), if_pos (by decide)]
  · exact h3.2.2 (by decide) (by decide)

/-- Cleaned address value: the captured value after trimming, whitespace
collapsing, the (vacuous) newline-run replacement, and the inner trim of
line 483-485 — the value whose length the 300-character bound tests. -/
def addressCleaned (raw : String) : List Char :=
  jsTrimL (replNlL (collapseWsL (jsTrimL raw.data)))

theorem newline_not_mem_collapse (v : List Char) : '\n' ∉ collapseWsL v := by
  intro hc
  have := collapse_ws_space false v '\n' hc (by decide)
  exact absurd this (by decide)

/-- C8: for an address-type field, the stored primary-pattern value is
the whitespace-collapsed cleaned value, whose whitespace is single
spaces only (every whitespace character is a space and no two adjacent
characters are whitespace), and whenever the cleaned value exceeds 300
characters the stored value is exactly its first 300 characters followed
by the ellipsis marker. -/
theorem address_truncation (fieldName raw : String)
    (haddr : containsSubS fieldName "Address" = true) :
    (∀ c ∈ addressCleaned raw, jsWs c = true → c = ' ') ∧
    List.Chain' noTwoWs (addressCleaned raw) ∧
    ((processPrimaryValue fieldName raw).data =
      if 300 < (addressCleaned raw).length
      then (addressCleaned raw).take 300 ++ ("...".data)
      else addressCleaned raw) ∧
    (300 < (addressCleaned raw).length →
      (processPrimaryValue fieldName raw).data =
        (addressCleaned raw).take 300 ++ ("...".data)) := by
  have hrepl : replNlL (collapseWsL (jsTrimL raw.data)) = collapseWsL (jsTrimL raw.data) :=
    replNl_eq_self _ (newline_not_mem_collapse _)
  have hclean : addressCleaned raw = jsTrimL (collapseWsL (jsTrimL raw.data)) := by
    unfold addressCleaned
    rw [hrepl]
  have hnl : '\n' ∉ addressCleaned raw := by
    rw [hclean]
    intro hc
    exact newline_not_mem_collapse (jsTrimL raw.data) (mem_jsTrimL hc)
  have hspace : ∀ c ∈ addressCleaned raw, jsWs c = true → c = ' ' := by
    rw [hclean]
    intro c hc hws
    exact collapse_ws_space false (jsTrimL raw.data) c (mem_jsTrimL hc) hws
  have hchain : List.Chain' noTwoWs (addressCleaned raw) := by
    rw [hclean]
    exact chain'_jsTrimL (collapse_chain' (jsTrimL raw.data) false)
  have hv2 : (processPrimaryValue fieldName raw).data =
      jsTrimL (stripNlEdgesL (addressCleanL (jsTrimL raw.data))) := by
    unfold processPrimaryValue
    rw [haddr]
    simp
  have hacl : addressCleanL (jsTrimL raw.data) =
      if 300 < (addressCleaned raw).length
      then (addressCleaned raw).take 300 ++ ("...".data)
      else addressCleaned raw := by
    unfold addressCleanL
    rfl
  have hnl_v2 : '\n' ∉ addressCleanL (jsTrimL raw.data) := by
    rw [hacl]
    by_cases hlen : 300 < (addressCleaned raw).length
    · rw [if_pos hlen]
      intro hc
      rcases List.mem_append.mp hc with hm | hm
      · exact hnl (List.take_subset 300 (addressCleaned raw) hm)
      · simp at hm
    · rw [if_neg hlen]
      exact hnl
  have htrimmed : jsTrimL (addressCleanL (jsTrimL raw.data)) =
      addressCleanL (jsTrimL raw.data) := by
    rw [hacl]
    by_cases hlen : 300 < (addressCleaned raw).length
    · rw [if_pos hlen]
      apply jsTrimL_eq_self
      · intro c hc
        obtain ⟨a, rest, hcons⟩ : ∃ a rest, addressCleaned raw = a :: rest := by
          cases hh : addressCleaned raw with
          | nil => rw [hh] at hlen; simp at hlen
          | cons a rest => exact ⟨a, rest, rfl⟩
        rw [hcons] at hc
        rw [show (300 : Nat) = 299 + 1 from rfl, List.take_succ_cons] at hc
        have hac : a = c := by simpa using hc
        subst hac
        apply jsTrimL_head? (collapseWsL (jsTrimL raw.data))
        rw [← hclean, hcons]
        rfl
      · intro c hc
        have h3 : (addressCleaned raw).take 300 ++ ("...".data) =
            ((addressCleaned raw).take 300 ++ ['.', '.']) ++ ['.'] := by simp
        rw [h3, List.getLast?_concat] at hc
        have hcc : c = '.' := by simpa using hc.symm
        subst hcc
        decide
    · rw [if_neg hlen]
      rw [hclean]
      exact jsTrimL_idem _
  refine ⟨hspace, hchain, ?_, ?_⟩
  · rw [hv2, stripNlEdges_eq_self _ hnl_v2, htrimmed, hacl]
  · intro hlen
    rw [hv2, stripNlEdges_eq_self _ hnl_v2, htrimmed, hacl, if_pos hlen]

/-- Concrete 301-character raw address value. -/
def longAddressRaw : String := ⟨List.replicate 301 'a'⟩

set_option maxRecDepth 8000 in
/-- Witness for C8 at a concrete 301-character address value. -/
theorem address_truncation_witness :
    300 < (addressCleaned longAddressRaw).length ∧
    (processPrimaryValue "Vendor Address" longAddressRaw).data =
      (addressCleaned longAddressRaw).take 300 ++ ("...".data) := by
  refine ⟨by decide, ?_⟩
  exact (address_truncation "Vendor Address" longAddressRaw (by decide)).2.2.2 (by decide)

/-! Section: claim C1, totality of the pattern field extractor. -/

theorem fieldForEntry_key (matchFn : MatchFn) (text : String)
    (e : String × List String) : (fieldForEntry matchFn text e).key = e.1 := by
  unfold fieldForEntry
  cases firstPrimary matchFn text e.1 e.2 with
  | some v => rfl
  | none =>
    cases extractFieldWithSimplePattern matchFn text e.1 with
    | some sv =>
      by_cases h : sv ≠ ""
      · simp [h]
      · simp [h]
    | none => rfl

theorem firstPrimary_ne_empty (matchFn : MatchFn) (text fieldName : String) :
    ∀ (pats : List String) (v : String),
      firstPrimary matchFn text fieldName pats = some v → v ≠ "" := by
  intro pats
  induction pats with
  | nil => intro v h; simp [firstPrimary] at h
  | cons pat rest ih =>
    intro v h
    cases hg : jsG1 (matchFn pat text) with
    | some captured =>
      simp only [firstPrimary, hg] at h
      by_cases hv : processPrimaryValue fieldName captured ≠ ""
      · rw [if_pos hv] at h
        cases h
        exact hv
      · rw [if_neg hv] at h
        exact ih v h
    | none =>
      simp only [firstPrimary, hg] at h
      exact ih v h

theorem calculateFieldConfidence_range (fieldName value : String) :
    0 ≤ calculateFieldConfidence fieldName value ∧
    calculateFieldConfidence fieldName value ≤ 1 := by
  unfold calculateFieldConfidence
  split
  · exact ⟨le_refl 0, by norm_num⟩
  · split
    · split <;> exact ⟨by decide, by decide⟩
    · split
      · split <;> exact ⟨by decide, by decide⟩
      · exact ⟨by decide, by decide⟩

/-- C1: on every input text and for every behaviour of the host regex
engine, `parseDocumentFields` returns exactly eleven entries, one per
known field name in fixed order, each with a non-empty string value and
a confidence in the unit interval; a field with no surviving primary
match and no usable simple-fallback value is recorded with the sentinel
value at confidence 0.0, never omitted. -/
theorem parseDocumentFields_total (matchFn : MatchFn) (text : String) :
    ((parseDocumentFields matchFn text).map ExtractedField.key = knownFieldNames) ∧
    (parseDocumentFields matchFn text).length = 11 ∧
    (∀ f ∈ parseDocumentFields matchFn text,
      f.value ≠ "" ∧ 0 ≤ f.confidence ∧ f.confidence ≤ 1) ∧
    (∀ e ∈ fieldPatterns,
      firstPrimary matchFn text e.1 e.2 = none →
      (∀ sv, extractFieldWithSimplePattern matchFn text e.1 = some sv → sv = "") →
      fieldForEntry matchFn text e =
        ⟨e.1, "Not found in document", 0⟩) := by
  refine ⟨?_, ?_, ?_, ?_⟩
  · show (fieldPatterns.map (fieldForEntry matchFn text)).map ExtractedField.key = _
    rw [List.map_map]
    have : (ExtractedField.key ∘ fieldForEntry matchFn text) =
        fun e => e.1 := by
      funext e
      exact fieldForEntry_key matchFn text e
    rw [this]
    rfl
  · show (fieldPatterns.map (fieldForEntry matchFn text)).length = 11
    rw [List.length_map]
    rfl
  · intro f hf
    rcases List.mem_map.mp hf with ⟨e, _he, rfl⟩
    cases hfp : firstPrimary matchFn text e.1 e.2 with
    | some v =>
      simp only [fieldForEntry, hfp]
      exact ⟨firstPrimary_ne_empty matchFn text e.1 e.2 v hfp,
        (calculateFieldConfidence_range e.1 v).1,
        (calculateFieldConfidence_range e.1 v).2⟩
    | none =>
      cases hs : extractFieldWithSimplePattern matchFn text e.1 with
      | some sv =>
        by_cases hsv : sv ≠ ""
        · simp only [fieldForEntry, hfp, hs, if_pos hsv]
          exact ⟨hsv, by decide, by decide⟩
        · simp only [fieldForEntry, hfp, hs, if_neg hsv]
          exact ⟨by decide, le_refl 0, by norm_num⟩
      | none =>
        simp only [fieldForEntry, hfp, hs]
        exact ⟨by decide, le_refl 0, by norm_num⟩
  · intro e _he h1 h2
    cases hs : extractFieldWithSimplePattern matchFn text e.1 with
    | some sv =>
      have hsv : sv = "" := h2 sv hs
      simp only [fieldForEntry, h1, hs]
      rw [if_neg (by simp [hsv])]
    | none =>
      simp only [fieldForEntry, h1, hs]

/-- Witness for C1 with the oracle that matches nothing and the empty
text: all eleven sentinel entries are produced. -/
theorem parseDocumentFields_total_witness :
    ((parseDocumentFields (fun _ _ => none) "").map ExtractedField.key = knownFieldNames) ∧
    (⟨"PO Number", "Not found in document", 0⟩ : ExtractedField) ∈
      parseDocumentFields (fun _ _ => none) "" ∧
    ((⟨"PO Number", "Not found in document", 0⟩ : ExtractedField).value ≠ "" ∧
      0 ≤ (⟨"PO Number", "Not found in document", 0⟩ : ExtractedField).confidence ∧
      (⟨"PO Number", "Not found in document", 0⟩ : ExtractedField).confidence ≤ 1) ∧
    fieldForEntry (fun _ _ => none) "" ("PO Number",
      (fieldPatterns.getD 0 ("", [])).2) =
      ⟨"PO Number", "Not found in document", 0⟩ := by
  have h := parseDocumentFields_total (fun _ _ => none) ""
  have hmem : (⟨"PO Number", "Not found in document", 0⟩ : ExtractedField) ∈
      parseDocumentFields (fun _ _ => none) "" := by decide
  have hnone : extractFieldWithSimplePattern (fun _ _ => none) "" "PO Number" = none := by
    decide
  refine ⟨h.1, hmem, h.2.2.1 _ hmem, ?_⟩
  have h4 := h.2.2.2 ("PO Number", (fieldPatterns.getD 0 ("", [])).2)
    (by decide) (by decide)
    (fun sv hsv => by rw [hnone] at hsv; exact Option.noConfusion hsv)
  exact h4

/-! Section: claims C2 and C4, the probe loop policy. -/

theorem probeGo_auth_abort (call : String → String → Sum String AxiosError) :
    ∀ (p₁ : List (String × String)) (d v : String)
      (p₂ : List (String × String)) (e : AxiosError) (last : Option AxiosError),
      (∀ q ∈ p₁, ∃ err, call q.1 q.2 = Sum.inr err ∧ isAuthError err = false) →
      call d v = Sum.inr e → isAuthError e = true →
      probeGo call (p₁ ++ (d, v) :: p₂) last =
        (Except.error (authFailMsg e), p₁ ++ [(d, v)]) := by
  intro p₁
  induction p₁ with
  | nil =>
    intro d v p₂ e last _hall hcall hauth
    simp only [List.nil_append, probeGo, hcall, hauth, if_pos]
  | cons q p₁t ih =>
    intro d v p₂ e last hall hcall hauth
    rcases hall q (List.mem_cons_self q p₁t) with ⟨err, hq, hna⟩
    have ht : ∀ r ∈ p₁t, ∃ err, call r.1 r.2 = Sum.inr err ∧ isAuthError err = false :=
      fun r hr => hall r (List.mem_cons_of_mem q hr)
    simp only [List.cons_append, probeGo, hq, hna, Bool.false_eq_true, if_false,
      List.append_eq, ih d v p₂ e (some err) ht hcall hauth]

theorem probeGo_exhaust (call : String → String → Sum String AxiosError) :
    ∀ (p : List (String × String)) (q : String × String) (e : AxiosError)
      (last : Option AxiosError),
      (∀ r ∈ p, ∃ err, call r.1 r.2 = Sum.inr err ∧ isAuthError err = false) →
      call q.1 q.2 = Sum.inr e → isAuthError e = false →
      probeGo call (p ++ [q]) last =
        (Except.error (aggregateMsg (some e)), p ++ [q]) := by
  intro p
  induction p with
  | nil =>
    intro q e last _hall hcall hauth
    simp only [List.nil_append, probeGo, hcall, hauth, Bool.false_eq_true, if_false]
  | cons r pt ih =>
    intro q e last hall hcall hauth
    rcases hall r (List.mem_cons_self r pt) with ⟨err, hr, hna⟩
    have ht : ∀ x ∈ pt, ∃ err, call x.1 x.2 = Sum.inr err ∧ isAuthError err = false :=
      fun x hx => hall x (List.mem_cons_of_mem r hx)
    simp only [List.cons_append, probeGo, hr, hna, Bool.false_eq_true, if_false,
      List.append_eq, ih q e (some err) ht hcall hauth]

theorem probeGo_first_success (call : String → String → Sum String AxiosError) :
    ∀ (p₁ : List (String × String)) (d v : String)
      (p₂ : List (String × String)) (content : String) (last : Option AxiosError),
      (∀ q ∈ p₁, ∃ err, call q.1 q.2 = Sum.inr err ∧ isAuthError err = false) →
      call d v = Sum.inl content →
      probeGo call (p₁ ++ (d, v) :: p₂) last =
        (Except.ok (content, d, v), p₁ ++ [(d, v)]) := by
  intro p₁
  induction p₁ with
  | nil =>
    intro d v p₂ content last _hall hcall
    simp only [List.nil_append, probeGo, hcall]
  | cons q p₁t ih =>
    intro d v p₂ content last hall hcall
    rcases hall q (List.mem_cons_self q p₁t) with ⟨err, hq, hna⟩
    have ht : ∀ r ∈ p₁t, ∃ err, call r.1 r.2 = Sum.inr err ∧ isAuthError err = false :=
      fun r hr => hall r (List.mem_cons_of_mem q hr)
    simp only [List.cons_append, probeGo, hq, hna, Bool.false_eq_true, if_false,
      List.append_eq, ih d v p₂ content (some err) ht hcall]

theorem probeGo_singleton_attempts (call : String → String → Sum String AxiosError)
    (d v : String) (last : Option AxiosError) :
    (probeGo call [(d, v)] last).2 = [(d, v)] := by
  cases hc : call d v with
  | inl content => simp [probeGo, hc]
  | inr e =>
    by_cases ha : isAuthError e
    · simp [probeGo, hc, ha]
    · simp [probeGo, hc, ha]

/-- C2: error policy of the probe loop.  If the candidate pairs up to
some pair fail with non-authentication errors and that pair fails with
an HTTP 401/403, the whole call aborts there with the authentication
error (no later pair is attempted); if every candidate pair fails with a
non-authentication error, the call fails with the aggregate error built
from the last observed failure. -/
theorem callAIFoundryAPI_error_policy (dn av : Option String)
    (pdfText : String) (call : String → String → Sum String AxiosError)
    (htext : jsTrim pdfText ≠ "") :
    (∀ p₁ d v p₂ e,
      probePairs dn av = p₁ ++ (d, v) :: p₂ →
      (∀ q ∈ p₁, ∃ err, call q.1 q.2 = Sum.inr err ∧ isAuthError err = false) →
      call d v = Sum.inr e → isAuthError e = true →
      callAIFoundryAPI dn av pdfText call =
        (Except.error ("AI Foundry API call failed: " ++ authFailMsg e),
          p₁ ++ [(d, v)])) ∧
    (∀ p q e,
      probePairs dn av = p ++ [q] →
      (∀ r ∈ p, ∃ err, call r.1 r.2 = Sum.inr err ∧ isAuthError err = false) →
      call q.1 q.2 = Sum.inr e → isAuthError e = false →
      callAIFoundryAPI dn av pdfText call =
        (Except.error ("AI Foundry API call failed: " ++ aggregateMsg (some e)),
          p ++ [q])) := by
  constructor
  · intro p₁ d v p₂ e hpairs hall hcall hauth
    unfold callAIFoundryAPI
    rw [if_neg htext, hpairs,
      probeGo_auth_abort call p₁ d v p₂ e none hall hcall hauth]
  · intro p q e hpairs hall hcall hauth
    unfold callAIFoundryAPI
    rw [if_neg htext, hpairs,
      probeGo_exhaust call p q e none hall hcall hauth]

/-- Witness for C2: a one-pair configuration failing with 401 aborts
with the authentication error, and one failing with 404 exhausts into
the aggregate error. -/
theorem callAIFoundryAPI_error_policy_witness :
    callAIFoundryAPI (some "dep") (some "ver") "text"
        (fun _ _ => Sum.inr ⟨some (401, "Unauthorized"), "failed"⟩) =
      (Except.error ("AI Foundry API call failed: " ++
        "Authentication failed: 401 Unauthorized. Please check your API key."),
        [("dep", "ver")]) ∧
    callAIFoundryAPI (some "dep") (some "ver") "text"
        (fun _ _ => Sum.inr ⟨some (404, "Not Found"), "failed"⟩) =
      (Except.error ("AI Foundry API call failed: " ++
        "All deployment/API version combinations failed. Last error: 404 Not Found"),
        [("dep", "ver")]) := by
  constructor
  · have h := (callAIFoundryAPI_error_policy (some "dep") (some "ver") "text"
      (fun _ _ => Sum.inr ⟨some (401, "Unauthorized"), "failed"⟩) (by decide)).1
    have := h [] "dep" "ver" [] ⟨some (401, "Unauthorized"), "failed"⟩
      (by decide) (by intro q hq; simp at hq) rfl (by decide)
    simpa using this
  · have h := (callAIFoundryAPI_error_policy (some "dep") (some "ver") "text"
      (fun _ _ => Sum.inr ⟨some (404, "Not Found"), "failed"⟩) (by decide)).2
    have := h [] ("dep", "ver") ⟨some (404, "Not Found"), "failed"⟩
      (by decide) (by intro r hr; simp at hr) rfl (by decide)
    simpa using this

/-- C4: probe enumeration.  With both a deployment name and an API
version configured (truthy), the candidate list is exactly that single
pair and exactly one call is attempted whatever its outcome; otherwise
the candidates are the fixed ordered Cartesian product of the 7 default
deployment names by the 4 default API versions, traversed in order and
stopped at the first successful call. -/
theorem callAIFoundryAPI_probe_enumeration (dn av : Option String) :
    ((jsTruthy dn && jsTruthy av) = true →
      probePairs dn av = [(dn.getD "", av.getD "")] ∧
      (∀ (pdfText : String) (call : String → String → Sum String AxiosError),
        jsTrim pdfText ≠ "" →
        (callAIFoundryAPI dn av pdfText call).2 = [(dn.getD "", av.getD "")])) ∧
    ((jsTruthy dn && jsTruthy av) = false →
      probePairs dn av =
        ((deploymentOptionsDefault.map
          (fun d => apiVersionsDefault.map (fun v => (d, v)))).flatten) ∧
      deploymentOptionsDefault.length = 7 ∧
      apiVersionsDefault.length = 4 ∧
      (probePairs dn av).length = 28 ∧
      (∀ (pdfText : String) (call : String → String → Sum String AxiosError)
         p₁ d v p₂ content,
        jsTrim pdfText ≠ "" →
        probePairs dn av = p₁ ++ (d, v) :: p₂ →
        (∀ q ∈ p₁, ∃ err, call q.1 q.2 = Sum.inr err ∧ isAuthError err = false) →
        call d v = Sum.inl content →
        callAIFoundryAPI dn av pdfText call =
          (Except.ok (content, d, v), p₁ ++ [(d, v)]))) := by
  constructor
  · intro hcfg
    have hpairs : probePairs dn av = [(dn.getD "", av.getD "")] := by
      unfold probePairs probeDeployments probeVersions
      rw [hcfg]
      simp
    refine ⟨hpairs, ?_⟩
    intro pdfText call htext
    unfold callAIFoundryAPI
    rw [if_neg htext, hpairs]
    exact probeGo_singleton_attempts call _ _ none
  · intro hcfg
    have hpairs : probePairs dn av =
        ((deploymentOptionsDefault.map
          (fun d => apiVersionsDefault.map (fun v => (d, v)))).flatten) := by
      unfold probePairs probeDeployments probeVersions
      rw [hcfg]
      simp
    refine ⟨hpairs, rfl, rfl, ?_, ?_⟩
    · rw [hpairs]
      rfl
    · intro pdfText call p₁ d v p₂ content htext hdecomp hall hcall
      unfold callAIFoundryAPI
      rw [if_neg htext, hdecomp,
        probeGo_first_success call p₁ d v p₂ content none hall hcall]

/-- Witness for C4: with a configured pair any outcome attempts exactly
one call, and without configuration a success at the third candidate
pair after two retryable failures stops the iteration there. -/
theorem callAIFoundryAPI_probe_enumeration_witness :
    (callAIFoundryAPI (some "dep") (some "ver") "text"
      (fun _ _ => Sum.inr ⟨none, "timeout"⟩)).2 = [("dep", "ver")] ∧
    callAIFoundryAPI none none "text"
        (fun d v => if d = "gpt-4o" && v = "2023-12-01-preview"
          then Sum.inl "OK" else Sum.inr ⟨some (404, "Not Found"), "failed"⟩) =
      (Except.ok ("OK", "gpt-4o", "2023-12-01-preview"),
        [("gpt-4o", "2024-08-01-preview"), ("gpt-4o", "2024-02-15-preview"),
         ("gpt-4o", "2023-12-01-preview")]) := by
  constructor
  · exact ((callAIFoundryAPI_probe_enumeration (some "dep") (some "ver")).1
      (by decide)).2 "text" _ (by decide)
  · have h := ((callAIFoundryAPI_probe_enumeration none none).2 (by decide)).2.2.2.2
      "text"
      (fun d v => if d = "gpt-4o" && v = "2023-12-01-preview"
        then Sum.inl "OK" else Sum.inr ⟨some (404, "Not Found"), "failed"⟩)
      [("gpt-4o", "2024-08-01-preview"), ("gpt-4o", "2024-02-15-preview")]
      "gpt-4o" "2023-12-01-preview"
      (("gpt-4o", "2023-05-15") ::
        ((["gpt-4o-mini", "gpt-4", "gpt-4-turbo", "gpt-35-turbo",
           "gpt-35-turbo-16k", "text-davinci-003"].map
          (fun d => apiVersionsDefault.map (fun v => (d, v)))).flatten))
      "OK" (by decide) (by decide)
      (by
        intro q hq
        refine ⟨⟨some (404, "Not Found"), "failed"⟩, ?_, by decide⟩
        rcases List.mem_cons.mp hq with h1 | h1
        · subst h1; decide
        · rcases List.mem_cons.mp h1 with h2 | h2
          · subst h2; decide
          · simp at h2)
      (by decide)
    simpa using h

/-! Section: claim C3, the orchestrator outcomes. -/

/-- C3: `extractData` reaches exactly one of three outcomes.  With a
falsy API key or URL the local extractor runs and the message tags local
processing with the not-configured marker; with credentials and an AI
success the AI message is returned and the local extractor is not
invoked; with credentials and any AI error the local extractor runs, the
message embeds the AI error text, and an error-detail record with the
timestamp and the fallback flag is attached.  In every case the envelope
reports success. -/
theorem extractData_outcomes {α β : Type} (apiKey apiUrl : Option String)
    (aiResult : Except String α) (localData : β) (now : String) :
    (extractData apiKey apiUrl aiResult localData now).success = true ∧
    ((!jsTruthy apiKey || !jsTruthy apiUrl) = true →
      (extractData apiKey apiUrl aiResult localData now).localRan = true ∧
      (extractData apiKey apiUrl aiResult localData now).data = Sum.inr localData ∧
      containsSubS (extractData apiKey apiUrl aiResult localData now).message
        "local processing" = true ∧
      containsSubS (extractData apiKey apiUrl aiResult localData now).message
        "AI Foundry not configured" = true ∧
      (extractData apiKey apiUrl aiResult localData now).aiErrorDetails = none) ∧
    ((!jsTruthy apiKey || !jsTruthy apiUrl) = false →
      (∀ a, aiResult = Except.ok a →
        extractData apiKey apiUrl aiResult localData now =
          ⟨true, "Document processed successfully with AI Foundry",
            Sum.inl a, none, false⟩) ∧
      (∀ e, aiResult = Except.error e →
        (extractData apiKey apiUrl aiResult localData now).localRan = true ∧
        (extractData apiKey apiUrl aiResult localData now).data = Sum.inr localData ∧
        (extractData apiKey apiUrl aiResult localData now).message =
          "Document processed successfully with local processing (AI Foundry failed: "
            ++ e ++ ")" ∧
        (extractData apiKey apiUrl aiResult localData now).aiErrorDetails =
          some ⟨e, now, true⟩)) := by
  refine ⟨?_, ?_, ?_⟩
  · unfold extractData
    split
    · rfl
    · cases aiResult <;> rfl
  · intro hcfg
    unfold extractData
    rw [if_pos hcfg]
    refine ⟨rfl, rfl, ?_, ?_, rfl⟩
    · show containsSubS
        "Document processed successfully with local processing (AI Foundry not configured)"
        "local processing" = true
      decide
    · show containsSubS
        "Document processed successfully with local processing (AI Foundry not configured)"
        "AI Foundry not configured" = true
      decide
  · intro hcfg
    constructor
    · intro a ha
      subst ha
      unfold extractData
      rw [if_neg (by simp [hcfg])]
    · intro e he
      subst he
      unfold extractData
      rw [if_neg (by simp [hcfg])]
      exact ⟨rfl, rfl, rfl, rfl⟩

/-- Witness for C3 exercising all three outcomes at concrete inputs. -/
theorem extractData_outcomes_witness :
    (extractData (α := Nat) (β := Nat) none none (Except.ok 1) 2 "T").localRan
      = true ∧
    extractData (α := Nat) (β := Nat) (some "k") (some "u") (Except.ok 1) 2 "T" =
      ⟨true, "Document processed successfully with AI Foundry",
        Sum.inl 1, none, false⟩ ∧
    (extractData (α := Nat) (β := Nat) (some "k") (some "u")
        (Except.error "boom") 2 "T").aiErrorDetails = some ⟨"boom", "T", true⟩ := by
  have h1 := extractData_outcomes (α := Nat) (β := Nat) none none
    (Except.ok 1) 2 "T"
  have h2 := extractData_outcomes (α := Nat) (β := Nat) (some "k") (some "u")
    (Except.ok 1) 2 "T"
  have h3 := extractData_outcomes (α := Nat) (β := Nat) (some "k") (some "u")
    (Except.error "boom") 2 "T"
  exact ⟨(h1.2.1 (by decide)).1, (h2.2.2 (by decide)).1 1 rfl,
    ((h3.2.2 (by decide)).2 "boom" rfl).2.2.2⟩

/-! Section: claims C9 and C10, AI response normalisation. -/

theorem mkRat_90_eq : mkRat 90 100 = (0.90 : ℚ) := by
  rw [Rat.mkRat_eq_div]; norm_num

theorem mkRat_85_eq : mkRat 85 100 = (0.85 : ℚ) := by
  rw [Rat.mkRat_eq_div]; norm_num

theorem extractFromObject_cons_eq (pfx k' : String) (v' : JsonVal)
    (rest : List (String × JsonVal)) :
    extractFromObject ((k', v') :: rest) pfx =
      (match v' with
       | JsonVal.obj entries2 => extractFromObject entries2 (jsTernaryKey pfx k')
       | JsonVal.str sv => [⟨mappedKey pfx k', sv, mkRat 90 100⟩]
       | JsonVal.num n => [⟨mappedKey pfx k', toString n, mkRat 90 100⟩]
       | _ => []) ++ extractFromObject rest pfx := by
  cases v' <;> simp [extractFromObject]

theorem extractFromObject_confidence :
    ∀ (entries : List (String × JsonVal)) (pfx : String)
      (f : ExtractedField), f ∈ extractFromObject entries pfx →
      f.confidence = mkRat 90 100 := by
  intro entries pfx f hf
  induction entries, pfx using extractFromObject.induct generalizing f with
  | case1 pfx => simp [extractFromObject] at hf
  | case2 pfx k v rest ih1 ih2 =>
    cases v with
    | obj entries2 =>
      rw [extractFromObject] at hf
      rcases List.mem_append.mp hf with hm | hm
      · exact ih1 f hm
      · exact ih2 f hm
    | str sv =>
      rw [extractFromObject] at hf
      rcases List.mem_append.mp hf with hm | hm
      · have hfe : f = ⟨mappedKey pfx k, sv, mkRat 90 100⟩ := by simpa using hm
        rw [hfe]
      · exact ih2 f hm
    | num n =>
      rw [extractFromObject] at hf
      rcases List.mem_append.mp hf with hm | hm
      · have hfe : f = ⟨mappedKey pfx k, toString n, mkRat 90 100⟩ := by
          simpa using hm
        rw [hfe]
      · exact ih2 f hm
    | bool b =>
      simp only [extractFromObject, List.nil_append] at hf
      exact ih2 f hf
    | null =>
      simp only [extractFromObject, List.nil_append] at hf
      exact ih2 f hf
    | arr elems =>
      simp only [extractFromObject, List.nil_append] at hf
      exact ih2 f hf

theorem parseAITextResponse_fields (aiText : String) (f : ExtractedField)
    (hf : f ∈ parseAITextResponse aiText) :
    f.confidence = mkRat 85 100 ∧ f.value ≠ "" ∧ f.value ≠ "N/A" ∧
    f.value ≠ "Not found" := by
  unfold parseAITextResponse at hf
  rcases List.mem_filterMap.mp hf with ⟨line, _hl, hg⟩
  cases hkv : jsMatchKV line.data with
  | none => rw [hkv] at hg; exact absurd hg (by simp)
  | some kv =>
    rw [hkv] at hg
    dsimp only at hg
    split at hg
    · next hcond =>
      have hfe : f = ⟨jsTrim ⟨kv.1⟩, jsTrim ⟨kv.2⟩, mkRat 85 100⟩ := by
        simpa using hg.symm
      simp only [Bool.and_eq_true, decide_eq_true_eq] at hcond
      rw [hfe]
      exact ⟨rfl, hcond.1.1.2, hcond.1.2, hcond.2⟩
    · exact absurd hg (by simp)

/-- C9: when the (fence-stripped) AI response parses as JSON, every
emitted field carries confidence exactly 0.90 and its key is resolved by
the variant lookup table, trying the prefixed key path first, then the
unprefixed key, defaulting to the raw key; when JSON parsing fails, the
line-oriented text parser emits fields at confidence exactly 0.85 and
skips lines whose value is the Not found or N/A sentinel. -/
theorem aiResponse_confidences :
    (∀ (aiData : JsonVal) (fields : List ExtractedField),
      convertAIResponseToFields aiData = Except.ok fields →
      ∀ f ∈ fields, f.confidence = 0.90) ∧
    (∀ (pfx k sv : String) (rest : List (String × JsonVal)),
      extractFromObject ((k, JsonVal.str sv) :: rest) pfx =
        ⟨mappedKey pfx k, sv, 0.90⟩ :: extractFromObject rest pfx) ∧
    (∀ (pfx k : String) (n : Int) (rest : List (String × JsonVal)),
      extractFromObject ((k, JsonVal.num n) :: rest) pfx =
        ⟨mappedKey pfx k, toString n, 0.90⟩ :: extractFromObject rest pfx) ∧
    (∀ pfx k m, fieldMappings.lookup (jsTernaryKey pfx k) = some m →
      mappedKey pfx k = m) ∧
    (∀ pfx k m, fieldMappings.lookup (jsTernaryKey pfx k) = none →
      fieldMappings.lookup k = some m → mappedKey pfx k = m) ∧
    (∀ pfx k, fieldMappings.lookup (jsTernaryKey pfx k) = none →
      fieldMappings.lookup k = none → mappedKey pfx k = k) ∧
    (∀ (aiText : String), ∀ f ∈ parseAITextResponse aiText,
      f.confidence = 0.85 ∧ f.value ≠ "" ∧ f.value ≠ "N/A" ∧
      f.value ≠ "Not found") := by
  refine ⟨?_, ?_, ?_, ?_, ?_, ?_, ?_⟩
  · intro aiData fields hconv f hf
    rw [← mkRat_90_eq]
    cases aiData with
    | null => exact absurd hconv (by simp [convertAIResponseToFields])
    | obj entries =>
      have : fields = extractFromObject entries "" := by
        simpa [convertAIResponseToFields] using hconv.symm
      exact extractFromObject_confidence entries "" f (this ▸ hf)
    | arr elems =>
      have : fields = extractFromObject
          (elems.enum.map (fun iv => (toString iv.1, iv.2))) "" := by
        simpa [convertAIResponseToFields] using hconv.symm
      exact extractFromObject_confidence _ "" f (this ▸ hf)
    | str sv =>
      have : fields = extractFromObject
          (sv.data.enum.map (fun ic => (toString ic.1, JsonVal.str ⟨[ic.2]⟩))) "" := by
        simpa [convertAIResponseToFields] using hconv.symm
      exact extractFromObject_confidence _ "" f (this ▸ hf)
    | num n =>
      have : fields = extractFromObject [] "" := by
        simpa [convertAIResponseToFields] using hconv.symm
      exact extractFromObject_confidence _ "" f (this ▸ hf)
    | bool b =>
      have : fields = extractFromObject [] "" := by
        simpa [convertAIResponseToFields] using hconv.symm
      exact extractFromObject_confidence _ "" f (this ▸ hf)
  · intro pfx k sv rest
    rw [extractFromObject, mkRat_90_eq]
    rfl
  · intro pfx k n rest
    rw [extractFromObject, mkRat_90_eq]
    rfl
  · intro pfx k m hm
    unfold mappedKey
    rw [hm]
  · intro pfx k m h1 h2
    unfold mappedKey
    rw [h1, h2]
  · intro pfx k h1 h2
    unfold mappedKey
    rw [h1, h2]
  · intro aiText f hf
    have h := parseAITextResponse_fields aiText f hf
    exact ⟨mkRat_85_eq ▸ h.1, h.2.1, h.2.2.1, h.2.2.2⟩

/-- Witness for C9 at concrete inputs: a JSON field at 0.90 through the
variant lookup, lookup-rule instances, and a text-parsed field at
0.85. -/
theorem aiResponse_confidences_witness :
    ((⟨"Vendor Name", "Acme", mkRat 90 100⟩ : ExtractedField).confidence = 0.90) ∧
    (mappedKey "x" "date" = "Order Date") ∧
    (mappedKey "" "vendorName" = "Vendor Name") ∧
    (mappedKey "x" "unknown" = "unknown") ∧
    ((⟨"Vendor", "Acme LLC", mkRat 85 100⟩ : ExtractedField).confidence = 0.85) := by
  have h := aiResponse_confidences
  refine ⟨?_, ?_, ?_, ?_, ?_⟩
  · have h0 : extractFromObject [] "" = [] := by simp [extractFromObject]
    have h1 : extractFromObject [("vendorName", JsonVal.str "Acme")] "" =
        [⟨"Vendor Name", "Acme", mkRat 90 100⟩] := by
      rw [extractFromObject_cons_eq, h0]
      rw [show mappedKey "" "vendorName" = "Vendor Name" by decide]
      simp
    exact h.1 (JsonVal.obj [("vendorName", JsonVal.str "Acme")])
      [⟨"Vendor Name", "Acme", mkRat 90 100⟩]
      (by rw [convertAIResponseToFields, h1]) _ (by decide)
  · exact h.2.2.2.2.1 "x" "date" "Order Date" (by decide) (by decide)
  · exact h.2.2.2.1 "" "vendorName" "Vendor Name" (by decide)
  · exact h.2.2.2.2.2.1 "x" "unknown" (by decide) (by decide)
  · exact (h.2.2.2.2.2.2 "Vendor: Acme LLC"
      ⟨"Vendor", "Acme LLC", mkRat 85 100⟩ (by decide)).1

/-- C10: flattening a parsed AI JSON object emits fields only for string
and number leaves; a boolean, null or array entry contributes nothing
and is dropped from the output without affecting the rest. -/
theorem extractFromObject_drops_nonscalar :
    (∀ (pfx k : String) (v : JsonVal),
      (v = JsonVal.null ∨ (∃ b, v = JsonVal.bool b) ∨
        (∃ elems, v = JsonVal.arr elems)) →
      ∀ kvs1 kvs2,
        extractFromObject (kvs1 ++ (k, v) :: kvs2) pfx =
          extractFromObject (kvs1 ++ kvs2) pfx) ∧
    (∀ (pfx k : String) (v : JsonVal),
      (v = JsonVal.null ∨ (∃ b, v = JsonVal.bool b) ∨
        (∃ elems, v = JsonVal.arr elems)) →
      extractFromObject [(k, v)] pfx = []) := by
  have hmain : ∀ (pfx k : String) (v : JsonVal),
      (v = JsonVal.null ∨ (∃ b, v = JsonVal.bool b) ∨
        (∃ elems, v = JsonVal.arr elems)) →
      ∀ kvs1 kvs2,
        extractFromObject (kvs1 ++ (k, v) :: kvs2) pfx =
          extractFromObject (kvs1 ++ kvs2) pfx := by
    intro pfx k v hv kvs1 kvs2
    induction kvs1 generalizing pfx with
    | nil =>
      rcases hv with h | ⟨b, h⟩ | ⟨elems, h⟩ <;> subst h <;>
        simp [extractFromObject]
    | cons hd tl ih =>
      obtain ⟨k', v'⟩ := hd
      rw [List.cons_append, extractFromObject_cons_eq, List.cons_append,
        extractFromObject_cons_eq, ih pfx]
  refine ⟨hmain, ?_⟩
  intro pfx k v hv
  have h := hmain pfx k v hv [] []
  simpa [extractFromObject] using h

/-- Witness for C10 with a boolean and an array leaf at concrete
inputs. -/
theorem extractFromObject_drops_nonscalar_witness :
    extractFromObject [("a", JsonVal.str "x"), ("flag", JsonVal.bool true)] "" =
      extractFromObject [("a", JsonVal.str "x")] "" ∧
    extractFromObject [("xs", JsonVal.arr [JsonVal.str "1"])] "" = [] := by
  constructor
  · exact extractFromObject_drops_nonscalar.1 "" "flag" (JsonVal.bool true)
      (Or.inr (Or.inl ⟨true, rfl⟩)) [("a", JsonVal.str "x")] []
  · exact extractFromObject_drops_nonscalar.2 "" "xs"
      (JsonVal.arr [JsonVal.str "1"]) (Or.inr (Or.inr ⟨[JsonVal.str "1"], rfl⟩))

/-! Section: claims C5 and C6, table reconstruction. -/

/-- Synthetic document with the header tokens all on one line, followed
by a well-formed 11-line item block and a subtotal marker. -/
def c5OneLineHeaderText : String :=
  "ITEM UNIT QTY PART NO DESCRIPTION DUE DATE PRICE TAX% DISC LINE TOTAL\n10\nEA\n1\n\n1234567890\nWidget\nBlue\n2024-01-02\n$ 5.00\n5\n10%\n$ 5.00\nSUBTOTAL $ 5.00"

/-- The same document with the header spread over ten lines, the first
being the standalone token ITEM. -/
def c5MultiLineHeaderText : String :=
  "ITEM\nUNIT\nQTY\nPART NO\nDESCRIPTION\nDUE DATE\nPRICE\nTAX%\nDISC\nLINE TOTAL\n10\nEA\n1\n\n1234567890\nWidget\nBlue\n2024-01-02\n$ 5.00\n5\n10%\n$ 5.00\nSUBTOTAL $ 5.00"

/-- C5 counterexample.  The claim admits a header whose tokens are all
on one line, but the scan of lines 640-658 only starts at a line whose
trimmed content is exactly ITEM, so the one-line header yields no header
block and zero line items instead of one. -/
theorem c5_one_line_header_counterexample :
    extractLineItems c5OneLineHeaderText = [] ∧
    (extractLineItems c5OneLineHeaderText).length ≠ 1 := by
  refine ⟨by decide, by decide⟩

/-- C5 (amended): with the header block starting at a standalone ITEM
line and the remaining tokens within the 10-line window, one well-formed
11-line item block yields exactly one line item, and its description is
non-empty. -/
theorem extractLineItems_wellformed_block :
    extractLineItems c5MultiLineHeaderText =
      [⟨"10", "EA", "1", "1234567890", "Widget Blue", "2024-01-02",
        "5.00", "5%", "10%", "5.00"⟩] ∧
    (extractLineItems c5MultiLineHeaderText).length = 1 ∧
    ∀ item ∈ extractLineItems c5MultiLineHeaderText, item.description ≠ "" := by
  refine ⟨by decide, by decide, by decide⟩

/-- C6 counterexample.  Both lines of the two-line text qualify as table
rows and the run reaches the end of the text; the source returns without
flushing the pending run (lines 801-823 have no post-loop flush), so no
table is emitted, while the claim requires one. -/
theorem c6_trailing_run_counterexample :
    qualifiesAsRow (jsTrim "a  b") = true ∧
    qualifiesAsRow (jsTrim "c  d") = true ∧
    splitNl "a  b\nc  d" = ["a  b", "c  d"] ∧
    extractGenericTables "a  b\nc  d" = [] := by
  refine ⟨by decide, by decide, by decide, by decide⟩

theorem extractGenericTablesGo_contents :
    ∀ (lines : List String) (cur : List GCell),
      (extractGenericTablesGo lines cur).map (fun t => t.cells.map GCell.content) =
      terminatedRuns qualifiesAsRow (lines.map jsTrim) (cur.map GCell.content) := by
  intro lines
  induction lines with
  | nil => intro cur; rfl
  | cons line rest ih =>
    intro cur
    rw [List.map_cons, extractGenericTablesGo, terminatedRuns]
    by_cases hq : qualifiesAsRow (jsTrim line) = true
    · rw [if_pos ?_, if_pos hq]
      · rw [ih]
        simp
      · simpa [qualifiesAsRow] using hq
    · rw [if_neg ?_, if_neg hq]
      · by_cases hcur : cur.length > 0
        · rw [if_pos hcur, List.map_append, ih]
          by_cases h2 : cur.length ≥ 2
          · rw [if_pos h2, if_pos (by simpa using h2)]
            simp
          · rw [if_neg h2, if_neg (by simpa using h2)]
            simp
        · rw [if_neg hcur, ih]
          have hnil : cur = [] := by
            cases cur with
            | nil => rfl
            | cons a t => simp at hcur
          subst hnil
          simp
      · simpa [qualifiesAsRow] using hq

theorem extractGenericTablesGo_shape :
    ∀ (lines : List String) (cur : List GCell) (t : GTable),
      t ∈ extractGenericTablesGo lines cur →
      t.tableName = "Generic Table" ∧ t.rowCount = t.cells.length ∧
      2 ≤ t.rowCount := by
  intro lines
  induction lines with
  | nil => intro cur t ht; simp [extractGenericTablesGo] at ht
  | cons line rest ih =>
    intro cur t ht
    rw [extractGenericTablesGo] at ht
    by_cases hq : (splitColsS (jsTrim line)).length ≥ 2 ∧ jsTrim line ≠ ""
    · rw [if_pos (by simpa using hq)] at ht
      exact ih _ t ht
    · rw [if_neg (by simpa using hq)] at ht
      by_cases hcur : cur.length > 0
      · rw [if_pos hcur] at ht
        rcases List.mem_append.mp ht with hm | hm
        · by_cases h2 : cur.length ≥ 2
          · rw [if_pos h2] at hm
            have hte : t = ⟨"Generic Table", cur.length,
                (cur.map (fun row => (splitColsS row.content).length)).foldl max 0,
                cur⟩ := by simpa using hm
            rw [hte]
            exact ⟨rfl, rfl, h2⟩
          · rw [if_neg h2] at hm
            simp at hm
        · exact ih _ t hm
      · rw [if_neg hcur] at ht
        exact ih _ t ht

/-- C6 (amended): the generic tables are exactly the maximal runs of at
least two consecutive qualifying lines that are terminated by a
non-qualifying line; a single qualifying line is discarded, and so is a
run still open at the end of the text (the source never flushes the
pending run after the loop).  Each emitted table is a Generic Table
whose row count is its cell count, at least two. -/
theorem extractGenericTables_terminated_runs (text : String) :
    ((extractGenericTables text).map (fun t => t.cells.map GCell.content) =
      terminatedRuns qualifiesAsRow ((splitNl text).map jsTrim) []) ∧
    (∀ t ∈ extractGenericTables text,
      t.tableName = "Generic Table" ∧ t.rowCount = t.cells.length ∧
      2 ≤ t.rowCount) := by
  constructor
  · have h := extractGenericTablesGo_contents (splitNl text) []
    simpa [extractGenericTables] using h
  · intro t ht
    exact extractGenericTablesGo_shape (splitNl text) [] t ht

/-- Witness for the amended C6 at a concrete text whose two-row run is
terminated by a non-qualifying line. -/
theorem extractGenericTables_terminated_runs_witness :
    ((extractGenericTables "a  b\nc  d\nx").map
      (fun t => t.cells.map GCell.content) =
      terminatedRuns qualifiesAsRow ((splitNl "a  b\nc  d\nx").map jsTrim) []) ∧
    (⟨"Generic Table", 2, 2,
      [⟨"a  b", 0, 0, mkRat 80 100⟩, ⟨"c  d", 1, 0, mkRat 80 100⟩]⟩ : GTable) ∈
      extractGenericTables "a  b\nc  d\nx" ∧
    (2 : Nat) ≤ (⟨"Generic Table", 2, 2,
      [⟨"a  b", 0, 0, mkRat 80 100⟩, ⟨"c  d", 1, 0, mkRat 80 100⟩]⟩ : GTable).rowCount := by
  have h := extractGenericTables_terminated_runs "a  b\nc  d\nx"
  have hmem : (⟨"Generic Table", 2, 2,
      [⟨"a  b", 0, 0, mkRat 80 100⟩, ⟨"c  d", 1, 0, mkRat 80 100⟩]⟩ : GTable) ∈
      extractGenericTables "a  b\nc  d\nx" := by decide
  exact ⟨h.1, hmem, (h.2 _ hmem).2.2⟩

end PdfParser
